import Mathlib

/-!
Verification of the GoManus core against its specification.

The definitions below are shallow embeddings of the Go source:
  * `Memory` and its operations   — internal/bridge/python.go
  * `MCPTool.Execute` flattening  — internal/mcp/client.go
  * the MCP client manager        — internal/mcp/client.go
  * `StdioSession.Close`          — internal/mcp/stdio.go
  * the agent run loops           — internal/agent/manus.go and the base agent
Go `int` values are modelled as `Int`; Go slices as `List`; Go maps as
association lists with overwrite-on-insert semantics.
-/

set_option autoImplicit false

namespace GoManus

/-! ## List helper: the suffix of length `n` (Go `xs[len(xs)-n:]`) -/

/-- The last `n` elements of a list (all of it when it is shorter). -/
def takeLast {α : Type} (n : Nat) (xs : List α) : List α :=
  xs.drop (xs.length - n)

/-! ## Memory (internal/bridge/python.go)

`Memory` stores an ordered list of messages with a capacity `MaxMessages`
(a Go `int`, modelled as `Int`).  For the memory claims only message
identity matters, so the message type is a parameter.

Go panics on the slice `m.Messages[len(m.Messages)-m.MaxMessages:]` when
`MaxMessages` is negative; every `Memory` built by `NewMemory` has
`MaxMessages ≥ 1`, where this model and the Go code agree. -/

structure Memory (Msg : Type) where
  messages : List Msg
  maxMessages : Int
  deriving Repr, DecidableEq

/-- `NewMemory`: a non-positive capacity argument falls back to 100. -/
def NewMemory (Msg : Type) (maxMessages : Int) : Memory Msg :=
  { messages := [],
    maxMessages := if maxMessages ≤ 0 then 100 else maxMessages }

/-- `Memory.AddMessage`: append, then keep only the last `MaxMessages`. -/
def Memory.addMessage {Msg : Type} (m : Memory Msg) (message : Msg) :
    Memory Msg :=
  let msgs := m.messages ++ [message]
  if m.maxMessages < (msgs.length : Int) then
    { m with messages := msgs.drop (msgs.length - m.maxMessages.toNat) }
  else
    { m with messages := msgs }

/-- `Memory.AddMessages`: append a batch, then keep the last `MaxMessages`. -/
def Memory.addMessages {Msg : Type} (m : Memory Msg) (batch : List Msg) :
    Memory Msg :=
  let msgs := m.messages ++ batch
  if m.maxMessages < (msgs.length : Int) then
    { m with messages := msgs.drop (msgs.length - m.maxMessages.toNat) }
  else
    { m with messages := msgs }

/-- `Memory.GetRecentMessages`: the last `n` messages (all of them when
`n` is non-positive or exceeds the length). -/
def Memory.getRecentMessages {Msg : Type} (m : Memory Msg) (n : Int) :
    List Msg :=
  let len := m.messages.length
  let k : Nat := if n ≤ 0 ∨ (len : Int) < n then len else n.toNat
  m.messages.drop (len - k)

/-- One call against a `Memory`: `AddMessage` or `AddMessages`. -/
inductive MemOp (Msg : Type) where
  | add (message : Msg)
  | addMany (batch : List Msg)
  deriving Repr, DecidableEq

def applyMemOp {Msg : Type} (m : Memory Msg) : MemOp Msg → Memory Msg
  | .add message => m.addMessage message
  | .addMany batch => m.addMessages batch

def applyMemOps {Msg : Type} (m : Memory Msg) (ops : List (MemOp Msg)) :
    Memory Msg :=
  ops.foldl applyMemOp m

/-- The messages appended by one call. -/
def MemOp.msgs {Msg : Type} : MemOp Msg → List Msg
  | .add message => [message]
  | .addMany batch => batch

/-- All messages appended by a sequence of calls, in insertion order. -/
def appendedMsgs {Msg : Type} (ops : List (MemOp Msg)) : List Msg :=
  (ops.map MemOp.msgs).flatten

/-! ## MCPTool.Execute result flattening (internal/mcp/client.go)

`Execute` turns the ordered content parts of a `CallToolResult` into one
string: for each part of type `"text"` it appends `Text + "\n"`, and an
empty accumulated output is replaced by the fixed sentinel. -/

structure Content where
  type : String
  text : String
  deriving Repr, DecidableEq

/-- The loop `for _, content := range result.Content { ... }` of
`MCPTool.Execute`. -/
def flattenContent (parts : List Content) : String :=
  parts.foldl
    (fun output c => if c.type = "text" then output ++ c.text ++ "\n" else output)
    ""

/-- The sentinel `MCPTool.Execute` substitutes for an empty output. -/
def emptyOutputSentinel : String := "工具执行完成，无返回内容"

/-- The string `MCPTool.Execute` returns on a successful `CallTool`. -/
def executeOutput (parts : List Content) : String :=
  let output := flattenContent parts
  if output = "" then emptyOutputSentinel else output

/-! ## StdioSession.Close (internal/mcp/stdio.go)

`Close` is guarded by the `closed` flag: the first call closes the write
side of the child process and runs the graceful-wait / forced-termination
sequence; any later call returns `nil` immediately with no effect.

The state records the `closed` flag together with the facts `Close`
branches on (`stdin != nil`, `cmd != nil && cmd.Process != nil`) and
whether the child would exit within the 5-second grace period — the
latter is the environment behaviour that decides between a graceful wait
and a forced kill. -/

structure StdioState where
  closed : Bool
  hasStdin : Bool
  hasProcess : Bool
  childExitsInGrace : Bool
  deriving Repr, DecidableEq

/-- The observable shutdown effects of one `Close` call. -/
structure CloseEffects where
  stdinClosed : Bool
  shutdownWaited : Bool
  processKilled : Bool
  deriving Repr, DecidableEq

/-- No shutdown effect at all. -/
def noCloseEffects : CloseEffects :=
  { stdinClosed := false, shutdownWaited := false, processKilled := false }

/-- `StdioSession.Close`: returns the new state, the effects performed,
and the returned error (`none` = Go `nil`, which `Close` always returns). -/
def stdioClose (s : StdioState) : StdioState × CloseEffects × Option String :=
  if s.closed then
    (s, noCloseEffects, none)
  else
    ({ s with closed := true },
     { stdinClosed := s.hasStdin,
       shutdownWaited := s.hasProcess,
       processKilled := s.hasProcess && !s.childExitsInGrace },
     none)

/-! ## MCP client manager (internal/mcp/client.go)

Go maps (`map[string]ClientSession`, `map[string]*MCPTool`) are modelled
as association lists with at most one entry per key; `smapInsert` has Go's
overwrite semantics.  A remote session is modelled by the behaviour the
manager observes: whether `Initialize` succeeds and what `ListTools`
returns (`none` = error).  Session `Close` calls are recorded in a log. -/

/-- Go map lookup (keys compare by decidable equality, as Go compares
string keys byte for byte). -/
def smapFind {κ α : Type} [DecidableEq κ] (m : List (κ × α)) (k : κ) :
    Option α :=
  (m.find? (fun p => p.1 = k)).map Prod.snd

/-- Go map membership test. -/
def smapMem {κ α : Type} [DecidableEq κ] (m : List (κ × α)) (k : κ) : Bool :=
  m.any (fun p => p.1 = k)

/-- Go `delete(m, k)`. -/
def smapErase {κ α : Type} [DecidableEq κ] (m : List (κ × α)) (k : κ) :
    List (κ × α) :=
  m.filter (fun p => ¬ p.1 = k)

/-- Go `m[k] = v` (overwrites any entry for `k`). -/
def smapInsert {κ α : Type} [DecidableEq κ] (m : List (κ × α)) (k : κ)
    (v : α) : List (κ × α) :=
  smapErase m k ++ [(k, v)]

/-- A remote tool as listed by a server (`mcp.Tool`; the input schema is
irrelevant to the claims and omitted). -/
structure RemoteTool where
  name : String
  description : String
  deriving Repr, DecidableEq

/-- What the manager observes of one `ClientSession`. -/
structure SessionBehavior where
  initOk : Bool
  listTools : Option (List RemoteTool)
  deriving Repr, DecidableEq

/-- A Go string as the runtime sees it: a byte sequence.  Tool names are
modelled at this level because `sanitizeToolName` slices bytes
(`name[:64]`), which can cut through a multibyte character. -/
abbrev GoStr : Type := List UInt8

/-- The UTF-8 bytes of a string — what Go's `len`, slicing and map keys
operate on. -/
def utf8Bytes (s : String) : GoStr :=
  (s.data.map String.utf8EncodeChar).flatten

/-- One registered tool adapter (`MCPTool`). -/
structure MCPTool where
  name : GoStr
  description : String
  serverID : String
  originalName : String
  deriving Repr, DecidableEq

inductive ManagerEvent where
  | closedSession (serverID : String)
  deriving Repr, DecidableEq

/-- The `MCPClients` manager state.  The tools map is keyed by the
sanitized (byte-level) local name. -/
structure MCPClients where
  sessions : List (String × SessionBehavior)
  tools : List (GoStr × MCPTool)
  log : List ManagerEvent
  deriving Repr, DecidableEq

/-- `NewMCPClients`. -/
def emptyClients : MCPClients :=
  { sessions := [], tools := [], log := [] }

/-- `sanitizeToolName`: truncate to at most 64 bytes (`len(name) > 64`,
`name[:64]` both act on bytes), nothing else — in particular no collision
check. -/
def sanitizeToolName (name : GoStr) : GoStr :=
  if 64 < name.length then name.take 64 else name

/-- The local name `loadToolsLocked` registers a remote tool under:
`sanitizeToolName(fmt.Sprintf("mcp_%s_%s", serverID, tool.Name))`. -/
def namespacedName (serverID toolName : String) : GoStr :=
  sanitizeToolName (utf8Bytes ("mcp_" ++ serverID ++ "_" ++ toolName))

/-- `loadToolsLocked`: list the server's tools and register each under its
namespaced name; `none` when `ListTools` fails (no tool is registered). -/
def loadToolsLocked (m : MCPClients) (serverID : String)
    (session : SessionBehavior) : Option MCPClients :=
  match session.listTools with
  | none => none
  | some tools =>
    some { m with
      tools := tools.foldl
        (fun acc t =>
          smapInsert acc (namespacedName serverID t.name)
            { name := namespacedName serverID t.name,
              description := t.description,
              serverID := serverID,
              originalName := t.name })
        m.tools }

/-- `disconnectLocked`: a no-op for an unknown identity; otherwise remove
every tool owned by the server, close the session, drop it from the map. -/
def disconnectLocked (m : MCPClients) (serverID : String) : MCPClients :=
  match smapFind m.sessions serverID with
  | none => m
  | some _ =>
    { sessions := smapErase m.sessions serverID,
      tools := m.tools.filter (fun p => ¬ p.2.serverID = serverID),
      log := m.log ++ [.closedSession serverID] }

/-- The "disconnect any existing session for this identity first" step at
the top of `ConnectSSE`/`ConnectStdio`. -/
def preConnect (m : MCPClients) (serverID : String) : MCPClients :=
  if smapMem m.sessions serverID then disconnectLocked m serverID else m

/-- `ConnectSSE`/`ConnectStdio` (both have the same structure): disconnect
any old session, initialize the new one, register it, discover its tools;
on discovery failure close the new session and unregister it.  The `Bool`
is `true` when the call returned `nil`. -/
def connect (m : MCPClients) (serverID : String)
    (session : SessionBehavior) : MCPClients × Bool :=
  let m1 := preConnect m serverID
  if ¬ session.initOk then (m1, false)
  else
    let m2 := { m1 with sessions := smapInsert m1.sessions serverID session }
    match loadToolsLocked m2 serverID session with
    | none =>
      ({ m2 with
          sessions := smapErase m2.sessions serverID,
          log := m2.log ++ [.closedSession serverID] }, false)
    | some m3 => (m3, true)

/-- A declared server entry (`config.MCPServerConfig`). -/
structure MCPServerConfig where
  type : String
  url : String
  command : String
  deriving Repr, DecidableEq

/-- The identity a connect attempt actually runs under:
`ConnectSSE`/`ConnectStdio` substitute the URL (resp. the command) for an
empty `serverID` before doing anything else. -/
def effectiveID (sv : String × MCPServerConfig) : String :=
  if sv.1 = "" then
    (if sv.2.type = "sse" then sv.2.url else sv.2.command)
  else sv.1

/-- One iteration of the server loop of `InitializeFromConfig`: dispatch
on the declared transport, skip entries with a missing URL/command or an
unsupported type, apply the empty-identity fallback of
`ConnectSSE`/`ConnectStdio`, and on a connection failure log and move on
(the returned error of `connect` is dropped). -/
def initStep (behav : String → SessionBehavior) (acc : MCPClients)
    (sv : String × MCPServerConfig) : MCPClients :=
  if sv.2.type = "sse" then
    if ¬ sv.2.url = "" then
      (connect acc (if sv.1 = "" then sv.2.url else sv.1)
        (behav (if sv.1 = "" then sv.2.url else sv.1))).1
    else acc
  else if sv.2.type = "stdio" then
    if ¬ sv.2.command = "" then
      (connect acc (if sv.1 = "" then sv.2.command else sv.1)
        (behav (if sv.1 = "" then sv.2.command else sv.1))).1
    else acc
  else acc

/-- `InitializeFromConfig`: skip everything when disabled; fail only on a
cancelled context; otherwise attempt each declared server in turn,
skipping malformed entries and logging-and-skipping connection failures.
`behav` gives the session behaviour a server's transport would exhibit.
The `Bool` is `true` when the call returned `nil`. -/
def initializeFromConfig (m : MCPClients) (enabled : Bool) (cancelled : Bool)
    (servers : List (String × MCPServerConfig))
    (behav : String → SessionBehavior) : MCPClients × Bool :=
  if ¬ enabled then (m, true)
  else if cancelled then (m, false)
  else (servers.foldl (initStep behav) m, true)

/-! ### C4: Disconnect removes exactly the named server's adapters -/

/-- Every registered adapter's owning server has a registered session.
This holds in every manager state reachable through `connect`,
`disconnectLocked` and `initializeFromConfig` (tools are added only under
a just-registered session and removed when their session goes away). -/
def clientsInv (m : MCPClients) : Prop :=
  ∀ p ∈ m.tools, smapMem m.sessions p.2.serverID = true

/-! ### C7: batch initialization registers exactly the successes -/

/-- A connection attempt with this session behaviour fails: either
`Initialize` or the subsequent `ListTools` discovery errs. -/
def connectFails (b : SessionBehavior) : Bool :=
  !b.initOk || b.listTools.isNone

/-- A declared server the loop actually attempts: a supported transport
type with its address/command present. -/
def serverWellFormed (cfg : MCPServerConfig) : Prop :=
  (cfg.type = "sse" ∧ ¬ cfg.url = "") ∨
  (cfg.type = "stdio" ∧ ¬ cfg.command = "")

/-! ## Agent loops (internal/agent/manus.go and the base agent)

The language model is the spec's opaque collaborator; it is modelled as
an oracle from the step number to the generated reply (`none` = the
generation returned an error).  Strings are compared at the character
level; the Go code compares bytes, which agrees on valid UTF-8 text
because UTF-8 is self-synchronizing. -/

/-- The inner loop of the Go helper `containsSubstring`: scan every
offset `0 ≤ i ≤ len(s) - len(sub)` for a match. -/
def containsSubstring (s sub : List Char) : Bool :=
  if s.length < sub.length then false
  else (List.range (s.length - sub.length + 1)).any
    (fun i => (s.drop i).take sub.length = sub)

/-- The Go helper `contains`: substring test written as equality, head
slice, tail slice, or inner scan. -/
def goContains (s sub : String) : Bool :=
  let sd := s.data
  let sb := sub.data
  decide (sb.length ≤ sd.length) &&
    (decide (sd = sb) ||
      (decide (sb.length < sd.length) &&
        (decide (sd.take sb.length = sb) ||
         decide (takeLast sb.length sd = sb) ||
         containsSubstring sd sb)))

/-- A model reply as `Manus.Run` observes it: optional text content plus
the function names of its tool calls. -/
structure AgentMsg where
  content : Option String
  toolCallNames : List String
  deriving Repr, DecidableEq

/-- `Manus.isTaskComplete`: completion markers in the text, or a
`Terminate` tool call. -/
def isTaskCompleteManus (resp : AgentMsg) : Bool :=
  (match resp.content with
   | some c =>
     goContains c "任务完成" || goContains c "task completed" ||
     goContains c "完成" || goContains c "completed" || goContains c "Terminate"
   | none => false) ||
  resp.toolCallNames.any (fun n => n = "Terminate")

inductive ManusExit where
  | cancelled
  | genError
  | taskComplete
  | budget
  deriving Repr, DecidableEq

/-- The `for m.CurrentStep < m.MaxSteps` loop of `Manus.Run`, by
recursion on the remaining budget `maxSteps - currentStep`.  Returns the
final `CurrentStep` and why the loop ended. -/
def manusLoop (cancelled : Bool) (oracle : Nat → Option AgentMsg) :
    Nat → Nat → Nat × ManusExit
  | step, 0 => (step, .budget)
  | step, fuel + 1 =>
    if cancelled then (step, .cancelled)
    else
      match oracle (step + 1) with
      | none => (step + 1, .genError)
      | some resp =>
        if isTaskCompleteManus resp then (step + 1, .taskComplete)
        else manusLoop cancelled oracle (step + 1) fuel

structure ManusRunResult where
  finalStep : Nat
  err : Bool
  budgetWarned : Bool
  deriving Repr, DecidableEq

/-- `Manus.Run`: a fatal (non-MCP) initialization error returns early;
otherwise the loop runs from step 0.  `err` is whether `Run` returned a
non-nil error, `budgetWarned` whether the max-steps warning was logged
(`CurrentStep >= MaxSteps` after the loop). -/
def manusRun (initFatal cancelled : Bool) (oracle : Nat → Option AgentMsg)
    (maxSteps : Nat) : ManusRunResult :=
  if initFatal then { finalStep := 0, err := true, budgetWarned := false }
  else
    let r := manusLoop cancelled oracle 0 maxSteps
    { finalStep := r.1,
      err := match r.2 with
        | .cancelled => true
        | .genError => true
        | _ => false,
      budgetWarned := decide (maxSteps ≤ r.1) }

/-! ### C6: the duplicate-response guard of the base `Agent.Run`

The base agent's loop (`Agent.Run`) adds the reply to memory, checks the
text completion markers (`Agent.isTaskComplete` — no `Terminate` tool
check here), then the duplicate guard `Agent.isDuplicateResponse`: count,
among the last 5 memory entries (which include the reply just added),
those whose content equals the reply's, and break out of the loop when
the count reaches `DuplicateThreshold`.  Breaking out is all that
happens: `Run` then returns `nil`.  Messages are modelled by their
optional text content — the only field the loop inspects. -/

/-- `Agent.isTaskComplete` (base agent): text markers only. -/
def isTaskCompleteAgent (content : Option String) : Bool :=
  match content with
  | some c =>
    goContains c "任务完成" || goContains c "task completed" ||
    goContains c "完成" || goContains c "completed"
  | none => false

/-- `Agent.isDuplicateResponse`: count equal contents among
`GetRecentMessages(5)` (the just-appended reply included) and compare
with `DuplicateThreshold`. -/
def isDuplicateResponse (mem : Memory (Option String))
    (content : Option String) (dupThreshold : Int) : Bool :=
  match content with
  | none => false
  | some c =>
    let recent := mem.getRecentMessages 5
    let cnt := (recent.filter (fun msg => msg = some c)).length
    decide (dupThreshold ≤ (cnt : Int))

inductive AgentExit where
  | cancelled
  | genError
  | taskComplete
  | duplicate
  | budget
  deriving Repr, DecidableEq

/-- The `for a.CurrentStep < a.MaxSteps` loop of `Agent.Run`, by
recursion on the remaining budget.  Carries the memory because the
duplicate guard reads it. -/
def agentLoop (cancelled : Bool) (oracle : Nat → Option (Option String))
    (dupThreshold : Int) :
    Memory (Option String) → Nat → Nat →
      Memory (Option String) × Nat × AgentExit
  | mem, step, 0 => (mem, step, .budget)
  | mem, step, fuel + 1 =>
    if cancelled then (mem, step, .cancelled)
    else
      match oracle (step + 1) with
      | none => (mem, step + 1, .genError)
      | some content =>
        let memNext := mem.addMessage content
        if isTaskCompleteAgent content then (memNext, step + 1, .taskComplete)
        else if isDuplicateResponse memNext content dupThreshold then
          (memNext, step + 1, .duplicate)
        else agentLoop cancelled oracle dupThreshold memNext (step + 1) fuel

structure AgentRunResult where
  finalStep : Nat
  exit : AgentExit
  err : Bool
  memory : Memory (Option String)
  deriving Repr, DecidableEq

/-- The memory `Agent.Run` starts its loop with: `schema.NewMemory(100)`
from the constructor, the system prompt asserted by `Initialize` when it
is non-empty, then the user prompt appended by `Run`. -/
def agentInitMemory (systemPrompt prompt : String) :
    Memory (Option String) :=
  (if systemPrompt = "" then NewMemory (Option String) 100
   else (NewMemory (Option String) 100).addMessage
     (some systemPrompt)).addMessage (some prompt)

/-- The memory after the loop has appended the first `k` replies (on a
run where no exit fired among them). -/
def agentMemAt (oracle : Nat → Option (Option String))
    (mem0 : Memory (Option String)) : Nat → Memory (Option String)
  | 0 => mem0
  | k + 1 =>
    match oracle (k + 1) with
    | none => agentMemAt oracle mem0 k
    | some content => (agentMemAt oracle mem0 k).addMessage content

/-- `Agent.Run`: `err` is whether `Run` returned a non-nil error: only
the cancellation and generation-failure paths do — the task-complete,
duplicate-response and budget exits all return `nil`. -/
def agentRun (cancelled : Bool) (oracle : Nat → Option (Option String))
    (systemPrompt prompt : String) (maxSteps : Nat) (dupThreshold : Int) :
    AgentRunResult :=
  let r := agentLoop cancelled oracle dupThreshold
    (agentInitMemory systemPrompt prompt) 0 maxSteps
  { finalStep := r.2.1,
    exit := r.2.2,
    err := match r.2.2 with
      | .cancelled => true
      | .genError => true
      | _ => false,
    memory := r.1 }

/-! ## Theorems -/

theorem takeLast_eq_reverse_take {α : Type} (n : Nat) (xs : List α) :
    takeLast n xs = (xs.reverse.take n).reverse := by
  rw [takeLast, List.reverse_take, List.reverse_reverse, List.length_reverse]

theorem takeLast_length_le {α : Type} (n : Nat) (xs : List α) :
    (takeLast n xs).length ≤ n := by
  rw [takeLast_eq_reverse_take, List.length_reverse]
  exact (List.length_take n xs.reverse).le.trans (min_le_left _ _)

theorem takeLast_of_length_le {α : Type} (n : Nat) (xs : List α)
    (h : xs.length ≤ n) : takeLast n xs = xs := by
  rw [takeLast, Nat.sub_eq_zero_of_le h, List.drop_zero]

/-- Appending to an already-truncated buffer and truncating again is the same
as truncating the whole appended sequence once. -/
theorem takeLast_takeLast_append {α : Type} (n : Nat) (xs ys : List α) :
    takeLast n (takeLast n xs ++ ys) = takeLast n (xs ++ ys) := by
  rw [takeLast_eq_reverse_take, takeLast_eq_reverse_take n (xs ++ ys),
    List.reverse_append, takeLast_eq_reverse_take, List.reverse_reverse,
    List.reverse_append]
  congr 1
  rw [List.take_append_eq_append_take, List.take_append_eq_append_take,
    List.take_take, min_eq_left (Nat.sub_le _ _)]

theorem appendedMsgs_cons {Msg : Type} (op : MemOp Msg)
    (ops : List (MemOp Msg)) :
    appendedMsgs (op :: ops) = op.msgs ++ appendedMsgs ops := by
  simp [appendedMsgs]

theorem addMessage_maxMessages {Msg : Type} (m : Memory Msg) (message : Msg) :
    (m.addMessage message).maxMessages = m.maxMessages := by
  rw [Memory.addMessage]
  split <;> rfl

theorem addMessages_maxMessages {Msg : Type} (m : Memory Msg)
    (batch : List Msg) :
    (m.addMessages batch).maxMessages = m.maxMessages := by
  rw [Memory.addMessages]
  split <;> rfl

theorem addMessage_messages {Msg : Type} (N : Nat)
    (m : Memory Msg) (hmax : m.maxMessages = (N : Int))
    (message : Msg) :
    (m.addMessage message).messages =
      takeLast N (m.messages ++ [message]) := by
  rw [Memory.addMessage]
  simp only [hmax]
  by_cases h : ((N : Int) < (((m.messages ++ [message]).length : Nat) : Int))
  · rw [if_pos h]
    simp [takeLast]
  · rw [if_neg h]
    show m.messages ++ [message] = _
    rw [takeLast_of_length_le _ _ (by exact_mod_cast not_lt.mp h)]

theorem addMessages_messages {Msg : Type} (N : Nat)
    (m : Memory Msg) (hmax : m.maxMessages = (N : Int))
    (batch : List Msg) :
    (m.addMessages batch).messages =
      takeLast N (m.messages ++ batch) := by
  rw [Memory.addMessages]
  simp only [hmax]
  by_cases h : ((N : Int) < (((m.messages ++ batch).length : Nat) : Int))
  · rw [if_pos h]
    simp [takeLast]
  · rw [if_neg h]
    show m.messages ++ batch = _
    rw [takeLast_of_length_le _ _ (by exact_mod_cast not_lt.mp h)]

theorem applyMemOp_messages {Msg : Type} (N : Nat)
    (m : Memory Msg) (hmax : m.maxMessages = (N : Int)) (op : MemOp Msg) :
    (applyMemOp m op).maxMessages = (N : Int) ∧
    (applyMemOp m op).messages = takeLast N (m.messages ++ op.msgs) := by
  cases op with
  | add message =>
    exact ⟨by rw [applyMemOp, addMessage_maxMessages, hmax],
      addMessage_messages N m hmax message⟩
  | addMany batch =>
    exact ⟨by rw [applyMemOp, addMessages_maxMessages, hmax],
      addMessages_messages N m hmax batch⟩

theorem applyMemOps_messages {Msg : Type} (N : Nat)
    (ops : List (MemOp Msg)) :
    ∀ (m : Memory Msg) (acc : List Msg), m.maxMessages = (N : Int) →
      m.messages = takeLast N acc →
      (applyMemOps m ops).maxMessages = (N : Int) ∧
      (applyMemOps m ops).messages = takeLast N (acc ++ appendedMsgs ops) := by
  induction ops with
  | nil =>
    intro m acc hmax hmsgs
    simpa [applyMemOps, appendedMsgs] using ⟨hmax, hmsgs⟩
  | cons op ops ih =>
    intro m acc hmax hmsgs
    have step := applyMemOp_messages N m hmax op
    have step2 : (applyMemOp m op).messages = takeLast N (acc ++ op.msgs) := by
      rw [step.2, hmsgs, takeLast_takeLast_append]
    have hops : applyMemOps m (op :: ops) = applyMemOps (applyMemOp m op) ops := rfl
    rw [hops]
    have res := ih (applyMemOp m op) (acc ++ op.msgs) step.1 step2
    refine ⟨res.1, ?_⟩
    rw [res.2, appendedMsgs_cons, ← List.append_assoc]

/-- C1.  From `NewMemory N` with `N > 0`, after every prefix of any sequence
of `AddMessage`/`AddMessages` calls the buffer holds at most `N` messages,
and the final buffer is exactly the last `N` appended messages in insertion
order (all of them when fewer than `N` were appended). -/
theorem memory_capacity_and_fifo_eviction (N : Int) (hN : 0 < N)
    (Msg : Type) (ops : List (MemOp Msg)) :
    (∀ k : Nat,
      ((applyMemOps (NewMemory Msg N) (ops.take k)).messages).length ≤ N.toNat) ∧
    (applyMemOps (NewMemory Msg N) ops).messages =
      takeLast N.toNat (appendedMsgs ops) := by
  have hmax : (NewMemory Msg N).maxMessages = (N.toNat : Int) := by
    simp [NewMemory, not_le.mpr hN, Int.toNat_of_nonneg (le_of_lt hN)]
  have hmsg : (NewMemory Msg N).messages = takeLast N.toNat [] := by
    simp [NewMemory, takeLast]
  have hNpos : 0 < N.toNat := by omega
  constructor
  · intro k
    have h := (applyMemOps_messages N.toNat (ops.take k)
      (NewMemory Msg N) [] hmax hmsg).2
    rw [h]
    exact takeLast_length_le _ _
  · have h := (applyMemOps_messages N.toNat ops
      (NewMemory Msg N) [] hmax hmsg).2
    simpa using h

/-- Witness for C1 at `N = 2` and five appended messages. -/
theorem memory_capacity_and_fifo_eviction_witness :
    (0 : Int) < 2 ∧
    ((∀ k : Nat,
      ((applyMemOps (NewMemory Nat 2)
        ([MemOp.add 1, MemOp.addMany [2, 3], MemOp.add 4, MemOp.addMany [5]].take k)).messages).length
        ≤ (2 : Int).toNat) ∧
    (applyMemOps (NewMemory Nat 2)
        [MemOp.add 1, MemOp.addMany [2, 3], MemOp.add 4, MemOp.addMany [5]]).messages =
      takeLast (2 : Int).toNat
        (appendedMsgs [MemOp.add 1, MemOp.addMany [2, 3], MemOp.add 4, MemOp.addMany [5]])) :=
  ⟨by decide,
   memory_capacity_and_fifo_eviction 2 (by decide) Nat
     [MemOp.add 1, MemOp.addMany [2, 3], MemOp.add 4, MemOp.addMany [5]]⟩

/-- C10.  `NewMemory` with a non-positive capacity argument yields the
default capacity 100 and an empty message list. -/
theorem newMemory_nonpositive_default (Msg : Type) (n : Int) (h : n ≤ 0) :
    NewMemory Msg n = { messages := [], maxMessages := 100 } := by
  simp [NewMemory, h]

/-- Witness for C10 at `n = -3`. -/
theorem newMemory_nonpositive_default_witness :
    (-3 : Int) ≤ 0 ∧
    NewMemory Nat (-3) = { messages := [], maxMessages := 100 } :=
  ⟨by decide, newMemory_nonpositive_default Nat (-3) (by decide)⟩

theorem string_foldl_append (l : List String) :
    ∀ a : String,
      l.foldl (fun r s => r ++ s) a = a ++ l.foldl (fun r s => r ++ s) "" := by
  induction l with
  | nil =>
    intro a
    simp
  | cons x l ih =>
    intro a
    show l.foldl _ (a ++ x) = a ++ l.foldl _ ("" ++ x)
    rw [ih (a ++ x), ih ("" ++ x)]
    simp [String.append_assoc]

theorem string_join_cons (x : String) (l : List String) :
    String.join (x :: l) = x ++ String.join l := by
  show (x :: l).foldl (fun r s => r ++ s) "" = x ++ l.foldl (fun r s => r ++ s) ""
  show l.foldl (fun r s => r ++ s) ("" ++ x) = _
  rw [string_foldl_append l ("" ++ x)]
  simp

theorem flattenContent_go (parts : List Content) :
    ∀ acc : String,
      parts.foldl
        (fun output c => if c.type = "text" then output ++ c.text ++ "\n" else output)
        acc =
      acc ++ String.join ((parts.filter (fun c => c.type = "text")).map
        (fun c => c.text ++ "\n")) := by
  induction parts with
  | nil =>
    intro acc
    simp [String.join]
  | cons c parts ih =>
    intro acc
    rw [List.foldl_cons, ih, List.filter_cons]
    by_cases h : c.type = "text"
    · simp [h, string_join_cons, String.append_assoc]
    · simp [h]

/-- C2, counterexample.  A result with the single text part `"42"` flattens
to `"42\n"`, not to `"42"`: each text part is concatenated together with a
trailing newline. -/
theorem execute_flatten_single_42_counterexample :
    executeOutput [{ type := "text", text := "42" }] = "42\n" ∧
    executeOutput [{ type := "text", text := "42" }] ≠ "42" := by
  constructor
  · rfl
  · decide

/-- C2, amended.  `Execute` flattens the ordered content parts by
concatenating, for every part of type `"text"`, its text followed by a
newline; the single text part `"42"` flattens to `"42\n"` (not `"42"`),
an empty content-part list flattens to the fixed non-empty sentinel, and
the result is never the empty string. -/
theorem execute_flatten_newline_and_sentinel :
    (∀ parts : List Content,
      flattenContent parts =
        String.join ((parts.filter (fun c => c.type = "text")).map
          (fun c => c.text ++ "\n"))) ∧
    executeOutput [{ type := "text", text := "42" }] = "42\n" ∧
    executeOutput [] = emptyOutputSentinel ∧
    emptyOutputSentinel ≠ "" ∧
    (∀ parts : List Content, executeOutput parts ≠ "") := by
  refine ⟨?_, rfl, rfl, by decide, ?_⟩
  · intro parts
    have h := flattenContent_go parts ""
    simpa [flattenContent] using h
  · intro parts
    rw [executeOutput]
    by_cases h : flattenContent parts = ""
    · simp only [h, if_pos rfl]
      decide
    · simp [h]

/-- C9.  `Close` is idempotent: after a first `Close`, every further
`Close` returns `nil`, performs no shutdown effect (the write side is not
re-closed, the graceful-wait / forced-termination sequence does not run
again), and leaves the session state unchanged. -/
theorem stdioClose_idempotent (s : StdioState) :
    stdioClose (stdioClose s).1 = ((stdioClose s).1, noCloseEffects, none) ∧
    (stdioClose s).2.2 = none := by
  have h1 : (stdioClose s).1.closed = true := by
    rw [stdioClose]
    by_cases h : s.closed
    · rw [if_pos h]
      exact h
    · rw [if_neg h]
  refine ⟨?_, ?_⟩
  · rw [stdioClose, if_pos h1]
  · rw [stdioClose]
    by_cases h : s.closed
    · rw [if_pos h]
    · rw [if_neg h]

/-! ### Association-list map lemmas -/

theorem smapMem_eq_isSome {κ α : Type} [DecidableEq κ] (m : List (κ × α)) (k : κ) :
    smapMem m k = (smapFind m k).isSome := by
  induction m with
  | nil => rfl
  | cons q m ih =>
    by_cases h : q.1 = k
    · simp [smapMem, smapFind, List.any_cons, List.find?_cons, h]
    · simp [smapMem, smapFind, List.any_cons, List.find?_cons, h] at ih ⊢
      exact ih

theorem smapMem_append {κ α : Type} [DecidableEq κ] (xs ys : List (κ × α)) (k : κ) :
    smapMem (xs ++ ys) k = (smapMem xs k || smapMem ys k) := by
  simp [smapMem, List.any_append]

theorem smapErase_of_not_mem {κ α : Type} [DecidableEq κ] (m : List (κ × α)) (k : κ)
    (h : smapMem m k = false) : smapErase m k = m := by
  rw [smapErase, List.filter_eq_self]
  intro p hp
  have : ¬ p.1 = k := by
    intro hk
    have : smapMem m k = true := by
      rw [smapMem, List.any_eq_true]
      exact ⟨p, hp, by simp [hk]⟩
    rw [h] at this
    cases this
  simpa using this

theorem smapMem_erase_self {κ α : Type} [DecidableEq κ] (m : List (κ × α)) (k : κ) :
    smapMem (smapErase m k) k = false := by
  rw [smapMem, List.any_eq_false]
  intro p hp
  rw [smapErase, List.mem_filter] at hp
  simpa using of_decide_eq_true hp.2

theorem smapErase_insert {κ α : Type} [DecidableEq κ] (m : List (κ × α)) (k : κ)
    (v : α) : smapErase (smapInsert m k v) k = smapErase m k := by
  rw [smapInsert, smapErase, List.filter_append]
  have h1 : List.filter (fun p => decide (¬ p.1 = k)) [(k, v)] = [] := by
    simp
  rw [h1, List.append_nil]
  rw [smapErase, List.filter_filter]
  congr 1
  funext a
  exact Bool.and_self _

theorem smapInsert_of_not_mem {κ α : Type} [DecidableEq κ] (m : List (κ × α)) (k : κ)
    (v : α) (h : smapMem m k = false) :
    smapInsert m k v = m ++ [(k, v)] := by
  rw [smapInsert, smapErase_of_not_mem m k h]

/-! ### C3: namespaced tool names across servers -/

/-- C3, counterexample.  `sanitizeToolName` truncates to 64 characters
with no collision check, and tool registration overwrites.  Two distinct
server identities — 60 `'a'`s versus 60 `'a'`s followed by `"b"` — both
exposing a tool `"search"` produce the same truncated local name, so
connecting the second server silently replaces the first server's
adapter: afterwards the manager holds a single tool, owned by the second
server. -/
theorem namespaced_collision_counterexample :
    (List.replicate 60 'a').asString ≠ (List.replicate 60 'a').asString ++ "b" ∧
    namespacedName ((List.replicate 60 'a').asString) "search" =
      namespacedName ((List.replicate 60 'a').asString ++ "b") "search" ∧
    (let behavS : SessionBehavior :=
      { initOk := true, listTools := some [{ name := "search", description := "d" }] }
     let s2 := (connect
        (connect emptyClients ((List.replicate 60 'a').asString) behavS).1
        ((List.replicate 60 'a').asString ++ "b") behavS).1
     s2.tools.length = 1 ∧
     s2.tools.all
       (fun p => p.2.serverID = (List.replicate 60 'a').asString ++ "b") = true ∧
     smapFind s2.tools
       (namespacedName ((List.replicate 60 'a').asString) "search") =
       some { name := namespacedName ((List.replicate 60 'a').asString) "search",
              description := "d",
              serverID := (List.replicate 60 'a').asString ++ "b",
              originalName := "search" }) := by
  refine ⟨by decide, by decide, by decide, by decide, by decide⟩

theorem utf8Bytes_append (s t : String) :
    utf8Bytes (s ++ t) = utf8Bytes s ++ utf8Bytes t := by
  rw [utf8Bytes, utf8Bytes, utf8Bytes, String.data_append, List.map_append,
    List.flatten_append]

theorem namespacedName_inj (a b t : String)
    (ha : (utf8Bytes ("mcp_" ++ a ++ "_" ++ t)).length ≤ 64)
    (hb : (utf8Bytes ("mcp_" ++ b ++ "_" ++ t)).length ≤ 64)
    (hab : utf8Bytes a ≠ utf8Bytes b) :
    namespacedName a t ≠ namespacedName b t := by
  intro h
  apply hab
  rw [namespacedName, namespacedName, sanitizeToolName, sanitizeToolName,
    if_neg (not_lt.mpr ha), if_neg (not_lt.mpr hb)] at h
  simp only [utf8Bytes_append, List.append_assoc] at h
  have h2 := List.append_cancel_left h
  exact List.append_cancel_right h2

/-- C3, amended.  Namespaced tool names of two distinct server
identities (distinct as byte sequences, which is how Go compares
strings) exposing the same original tool name are distinct — and
registering the second server leaves the first server's adapter in
place — provided each namespaced name `"mcp_<serverID>_<name>"` stays
within the 64-byte truncation bound of `sanitizeToolName` (the
truncation is not collision-checked, so longer names sharing a 64-byte
head collide and the later registration overwrites the earlier one). -/
theorem namespaced_names_distinct_within_bound
    (idA idB toolName dA dB : String)
    (ha : (utf8Bytes ("mcp_" ++ idA ++ "_" ++ toolName)).length ≤ 64)
    (hb : (utf8Bytes ("mcp_" ++ idB ++ "_" ++ toolName)).length ≤ 64)
    (hab : utf8Bytes idA ≠ utf8Bytes idB) :
    namespacedName idA toolName ≠ namespacedName idB toolName ∧
    (let s2 := (connect
        (connect emptyClients idA
          { initOk := true,
            listTools := some [{ name := toolName, description := dA }] }).1
        idB
        { initOk := true,
          listTools := some [{ name := toolName, description := dB }] }).1
     smapFind s2.tools (namespacedName idA toolName) =
       some { name := namespacedName idA toolName, description := dA,
              serverID := idA, originalName := toolName } ∧
     smapFind s2.tools (namespacedName idB toolName) =
       some { name := namespacedName idB toolName, description := dB,
              serverID := idB, originalName := toolName }) := by
  have hnames := namespacedName_inj idA idB toolName ha hb hab
  have hstr : idA ≠ idB := fun he => hab (congrArg utf8Bytes he)
  refine ⟨hnames, ?_, ?_⟩ <;>
  · show smapFind (connect (connect emptyClients idA _).1 idB _).1.tools _ = _
    rw [connect, connect]
    simp only [preConnect, emptyClients, smapMem, List.any_nil, Bool.false_eq_true,
      if_false, not_true, smapInsert, smapErase, List.filter_nil, List.nil_append,
      loadToolsLocked, List.foldl_cons, List.foldl_nil]
    simp only [smapMem_append, smapMem, List.any_cons, List.any_nil]
    simp [smapFind, smapInsert, smapErase, List.find?_append, hstr, Ne.symm hstr,
      hnames, Ne.symm hnames, List.filter_cons, List.find?_cons]

/-- C4.  `Disconnect(X)` removes exactly the adapters owned by `X` and
the session entry for `X`: the remaining tools are literally the old
tools with the `X`-owned ones filtered out (every other adapter
unchanged, in order), and the remaining sessions are the old sessions
with the `X` entry removed (every other session entry unchanged). -/
theorem disconnect_removes_exactly_owned (m : MCPClients) (X : String)
    (hInv : clientsInv m) :
    (disconnectLocked m X).tools =
      m.tools.filter (fun p => ¬ p.2.serverID = X) ∧
    (disconnectLocked m X).sessions = smapErase m.sessions X := by
  rw [disconnectLocked]
  cases hfind : smapFind m.sessions X with
  | some b => exact ⟨rfl, rfl⟩
  | none =>
    have hmem : smapMem m.sessions X = false := by
      rw [smapMem_eq_isSome, hfind]
      rfl
    constructor
    · symm
      rw [List.filter_eq_self]
      intro p hp
      have howner := hInv p hp
      have : ¬ p.2.serverID = X := by
        intro hX
        rw [hX, hmem] at howner
        cases howner
      simpa using this
    · rw [smapErase_of_not_mem m.sessions X hmem]

/-- Witness for C4: a manager holding two servers with one adapter each;
disconnecting `"a"` keeps exactly server `"b"`'s adapter and session. -/
theorem disconnect_removes_exactly_owned_witness :
    (clientsInv
      { sessions := [("a", { initOk := true, listTools := some [] }),
                     ("b", { initOk := true, listTools := some [] })],
        tools := [(utf8Bytes "mcp_a_t",
                   { name := utf8Bytes "mcp_a_t", description := "",
                     serverID := "a", originalName := "t" }),
                  (utf8Bytes "mcp_b_t",
                   { name := utf8Bytes "mcp_b_t", description := "",
                     serverID := "b", originalName := "t" })],
        log := [] } ∧
    (disconnectLocked
      { sessions := [("a", { initOk := true, listTools := some [] }),
                     ("b", { initOk := true, listTools := some [] })],
        tools := [(utf8Bytes "mcp_a_t",
                   { name := utf8Bytes "mcp_a_t", description := "",
                     serverID := "a", originalName := "t" }),
                  (utf8Bytes "mcp_b_t",
                   { name := utf8Bytes "mcp_b_t", description := "",
                     serverID := "b", originalName := "t" })],
        log := [] } "a").tools =
      List.filter (fun p => ¬ p.2.serverID = "a")
        [(utf8Bytes "mcp_a_t",
          { name := utf8Bytes "mcp_a_t", description := "",
            serverID := "a", originalName := "t" }),
         (utf8Bytes "mcp_b_t",
          { name := utf8Bytes "mcp_b_t", description := "",
            serverID := "b", originalName := "t" })] ∧
    (disconnectLocked
      { sessions := [("a", { initOk := true, listTools := some [] }),
                     ("b", { initOk := true, listTools := some [] })],
        tools := [(utf8Bytes "mcp_a_t",
                   { name := utf8Bytes "mcp_a_t", description := "",
                     serverID := "a", originalName := "t" }),
                  (utf8Bytes "mcp_b_t",
                   { name := utf8Bytes "mcp_b_t", description := "",
                     serverID := "b", originalName := "t" })],
        log := [] } "a").sessions =
      smapErase [("a", { initOk := true, listTools := some [] }),
                 ("b", { initOk := true, listTools := some [] })] "a") :=
  ⟨by intro p hp; fin_cases hp <;> decide,
   disconnect_removes_exactly_owned _ "a" (by intro p hp; fin_cases hp <;> decide)⟩

/-- Witness for the amended C3 at servers `"serverA"`, `"serverB"` both
exposing `"search"`. -/
theorem namespaced_names_distinct_within_bound_witness :
    (utf8Bytes ("mcp_" ++ "serverA" ++ "_" ++ "search")).length ≤ 64 ∧
    (utf8Bytes ("mcp_" ++ "serverB" ++ "_" ++ "search")).length ≤ 64 ∧
    utf8Bytes "serverA" ≠ utf8Bytes "serverB" ∧
    (namespacedName "serverA" "search" ≠ namespacedName "serverB" "search" ∧
     (let s2 := (connect
        (connect emptyClients "serverA"
          { initOk := true,
            listTools := some [{ name := "search", description := "dA" }] }).1
        "serverB"
        { initOk := true,
          listTools := some [{ name := "search", description := "dB" }] }).1
      smapFind s2.tools (namespacedName "serverA" "search") =
        some { name := namespacedName "serverA" "search", description := "dA",
               serverID := "serverA", originalName := "search" } ∧
      smapFind s2.tools (namespacedName "serverB" "search") =
        some { name := namespacedName "serverB" "search", description := "dB",
               serverID := "serverB", originalName := "search" })) :=
  ⟨by decide, by decide, by decide,
   namespaced_names_distinct_within_bound "serverA" "serverB" "search" "dA" "dB"
     (by decide) (by decide) (by decide)⟩

/-! ### C8: discovery failure rolls the connect back -/

theorem preConnect_not_mem (m : MCPClients) (serverID : String) :
    smapMem (preConnect m serverID).sessions serverID = false := by
  rw [preConnect]
  by_cases h : smapMem m.sessions serverID
  · rw [if_pos h, disconnectLocked]
    cases hfind : smapFind m.sessions serverID with
    | none =>
      rw [smapMem_eq_isSome, hfind] at h
      cases h
    | some b => exact smapMem_erase_self m.sessions serverID
  · rw [if_neg h]
    exact Bool.not_eq_true _ ▸ (Bool.eq_false_iff.mpr h)

/-- C8.  When session initialization succeeds but tool discovery fails,
`Connect` returns an error and rolls back: the new session is closed (a
close event for it is appended to the log) and the final sessions and
tools are exactly those after the disconnect-any-previous-session step —
as if the connect never happened, apart from any prior session for that
identity having been disconnected. -/
theorem connect_discovery_failure_rollback (m : MCPClients)
    (serverID : String) (b : SessionBehavior)
    (hInit : b.initOk = true) (hList : b.listTools = none) :
    (connect m serverID b).2 = false ∧
    (connect m serverID b).1.sessions = (preConnect m serverID).sessions ∧
    (connect m serverID b).1.tools = (preConnect m serverID).tools ∧
    (connect m serverID b).1.log =
      (preConnect m serverID).log ++ [.closedSession serverID] := by
  have hmem := preConnect_not_mem m serverID
  rw [connect]
  simp only [hInit, not_true, if_false, loadToolsLocked, hList]
  refine ⟨trivial, ?_, trivial, trivial⟩
  show smapErase (smapInsert (preConnect m serverID).sessions serverID b)
      serverID = _
  rw [smapErase_insert, smapErase_of_not_mem _ _ hmem]

/-- Witness for C8: one prior session `"old"`, reconnect of `"old"` whose
discovery fails, rolled back to the disconnected state. -/
theorem connect_discovery_failure_rollback_witness :
    ((({ initOk := true, listTools := none } : SessionBehavior).initOk = true) ∧
     (({ initOk := true, listTools := none } : SessionBehavior).listTools = none)) ∧
    ((connect
        { sessions := [("old", { initOk := true, listTools := some [] })],
          tools := [], log := [] } "old"
        { initOk := true, listTools := none }).2 = false ∧
     (connect
        { sessions := [("old", { initOk := true, listTools := some [] })],
          tools := [], log := [] } "old"
        { initOk := true, listTools := none }).1.sessions =
       (preConnect
        { sessions := [("old", { initOk := true, listTools := some [] })],
          tools := [], log := [] } "old").sessions ∧
     (connect
        { sessions := [("old", { initOk := true, listTools := some [] })],
          tools := [], log := [] } "old"
        { initOk := true, listTools := none }).1.tools =
       (preConnect
        { sessions := [("old", { initOk := true, listTools := some [] })],
          tools := [], log := [] } "old").tools ∧
     (connect
        { sessions := [("old", { initOk := true, listTools := some [] })],
          tools := [], log := [] } "old"
        { initOk := true, listTools := none }).1.log =
       (preConnect
        { sessions := [("old", { initOk := true, listTools := some [] })],
          tools := [], log := [] } "old").log ++ [.closedSession "old"]) :=
  ⟨⟨rfl, rfl⟩,
   connect_discovery_failure_rollback
     { sessions := [("old", { initOk := true, listTools := some [] })],
       tools := [], log := [] } "old"
     { initOk := true, listTools := none } rfl rfl⟩

theorem connectFails_eq (b : SessionBehavior) :
    connectFails b = !(b.initOk && b.listTools.isSome) := by
  rw [connectFails]
  cases b.initOk <;> cases b.listTools <;> rfl

theorem initStep_of_wellFormed (behav : String → SessionBehavior)
    (acc : MCPClients) (sv : String × MCPServerConfig)
    (h : serverWellFormed sv.2) :
    initStep behav acc sv =
      (connect acc (effectiveID sv) (behav (effectiveID sv))).1 := by
  rcases h with ⟨ht, hu⟩ | ⟨ht, hc⟩
  · simp [initStep, effectiveID, ht, hu]
  · have hsse : ¬ sv.2.type = "sse" := by rw [ht]; decide
    simp [initStep, effectiveID, ht, hsse, hc]

theorem connect_sessions_of_not_mem (m : MCPClients) (id : String)
    (b : SessionBehavior) (h : smapMem m.sessions id = false) :
    (connect m id b).1.sessions =
      if b.initOk && b.listTools.isSome
      then m.sessions ++ [(id, b)] else m.sessions := by
  have hpre : preConnect m id = m := by simp [preConnect, h]
  rw [connect, hpre]
  cases hb : b.initOk with
  | false => simp [hb]
  | true =>
    simp only [hb, not_true, if_false, Bool.true_and]
    cases hl : b.listTools with
    | none =>
      simp only [loadToolsLocked, hl]
      simp [smapErase_insert, smapErase_of_not_mem _ _ h]
    | some ts =>
      simp only [loadToolsLocked, hl]
      simp [smapInsert_of_not_mem _ _ _ h]

theorem length_filter_bool_split {α : Type} (p : α → Bool) (l : List α) :
    (l.filter (fun a => !(p a))).length + (l.filter p).length = l.length := by
  induction l with
  | nil => rfl
  | cons a l ih =>
    cases h : p a <;> simp [List.filter_cons, h] <;> omega

theorem initFold_sessions_length (behav : String → SessionBehavior)
    (servers : List (String × MCPServerConfig)) :
    ∀ m : MCPClients,
      (∀ sv ∈ servers, serverWellFormed sv.2) →
      (servers.map effectiveID).Nodup →
      (∀ sv ∈ servers, smapMem m.sessions (effectiveID sv) = false) →
      (servers.foldl (initStep behav) m).sessions.length =
        m.sessions.length +
          (servers.filter
            (fun sv => !connectFails (behav (effectiveID sv)))).length := by
  induction servers with
  | nil =>
    intro m _ _ _
    simp
  | cons sv rest ih =>
    intro m hwf hnd hmem
    have hm : smapMem m.sessions (effectiveID sv) = false := hmem sv (by simp)
    have hsess :=
      connect_sessions_of_not_mem m (effectiveID sv) (behav (effectiveID sv)) hm
    have hnd' : (rest.map effectiveID).Nodup := (List.nodup_cons.mp hnd).2
    have hid : effectiveID sv ∉ rest.map effectiveID := (List.nodup_cons.mp hnd).1
    rw [List.foldl_cons, initStep_of_wellFormed behav m sv (hwf sv (by simp))]
    by_cases hfail : connectFails (behav (effectiveID sv)) = true
    · have hcond : ((behav (effectiveID sv)).initOk &&
          (behav (effectiveID sv)).listTools.isSome) = false := by
        rw [connectFails_eq] at hfail
        cases hok : ((behav (effectiveID sv)).initOk &&
            (behav (effectiveID sv)).listTools.isSome)
        · rfl
        · rw [hok] at hfail
          cases hfail
      have hsame : (connect m (effectiveID sv) (behav (effectiveID sv))).1.sessions
          = m.sessions := by
        rw [hsess, hcond]
        rfl
      have hrest := ih (connect m (effectiveID sv) (behav (effectiveID sv))).1
        (fun x hx => hwf x (List.mem_cons_of_mem _ hx)) hnd'
        (fun x hx => by rw [hsame]; exact hmem x (List.mem_cons_of_mem _ hx))
      rw [hrest, hsame, List.filter_cons]
      simp [hfail]
    · have hfail' : connectFails (behav (effectiveID sv)) = false :=
        Bool.eq_false_iff.mpr hfail
      have hcond : ((behav (effectiveID sv)).initOk &&
          (behav (effectiveID sv)).listTools.isSome) = true := by
        rw [connectFails_eq] at hfail'
        cases hok : ((behav (effectiveID sv)).initOk &&
            (behav (effectiveID sv)).listTools.isSome)
        · rw [hok] at hfail'
          cases hfail'
        · rfl
      have hgrow : (connect m (effectiveID sv) (behav (effectiveID sv))).1.sessions =
          m.sessions ++ [(effectiveID sv, behav (effectiveID sv))] := by
        rw [hsess, hcond]
        rfl
      have hrest := ih (connect m (effectiveID sv) (behav (effectiveID sv))).1
        (fun x hx => hwf x (List.mem_cons_of_mem _ hx)) hnd'
        (fun x hx => by
          rw [hgrow, smapMem_append, hmem x (List.mem_cons_of_mem _ hx)]
          have : ¬ effectiveID sv = effectiveID x := by
            intro he
            exact hid (he ▸ List.mem_map_of_mem effectiveID hx)
          simp [smapMem, this])
      rw [hrest, hgrow, List.filter_cons]
      simp [hfail']
      omega

/-- C7, counterexample.  Two declared servers with distinct well-formed
entries — identity `""` with URL `"u"`, and identity `"u"` — whose
connections both succeed (`K = 0`): `ConnectSSE`'s empty-identity
fallback runs the first server under the effective identity `"u"`, so
the second connect first disconnects it and re-registers; only 1 session
remains, not `N − K = 2`. -/
theorem empty_id_fallback_alias_counterexample :
    (∀ sv ∈ [(("" : String), ({ type := "sse", url := "u", command := "" } : MCPServerConfig)),
             ("u", { type := "sse", url := "w", command := "" })],
      serverWellFormed (Prod.snd sv)) ∧
    (([(("" : String), ({ type := "sse", url := "u", command := "" } : MCPServerConfig)),
       ("u", { type := "sse", url := "w", command := "" })].map Prod.fst).Nodup) ∧
    ([(("" : String), ({ type := "sse", url := "u", command := "" } : MCPServerConfig)),
      ("u", { type := "sse", url := "w", command := "" })].filter
      (fun sv => connectFails
        ((fun _ => ({ initOk := true, listTools := some [] } : SessionBehavior)) sv.1))).length
      = 0 ∧
    (initializeFromConfig emptyClients true false
      [("", { type := "sse", url := "u", command := "" }),
       ("u", { type := "sse", url := "w", command := "" })]
      (fun _ => { initOk := true, listTools := some [] })).2 = true ∧
    (initializeFromConfig emptyClients true false
      [("", { type := "sse", url := "u", command := "" }),
       ("u", { type := "sse", url := "w", command := "" })]
      (fun _ => { initOk := true, listTools := some [] })).1.sessions.length = 1 ∧
    ¬ (initializeFromConfig emptyClients true false
        [("", { type := "sse", url := "u", command := "" }),
         ("u", { type := "sse", url := "w", command := "" })]
        (fun _ => { initOk := true, listTools := some [] })).1.sessions.length
      = 2 - 0 := by
  refine ⟨?_, by decide, by decide, by decide, by decide, by decide⟩
  intro sv h
  fin_cases h
  · exact Or.inl ⟨rfl, by decide⟩
  · exact Or.inl ⟨rfl, by decide⟩

/-- C7, amended.  Starting from a fresh manager with an enabled
configuration and an uncancelled context, `InitializeFromConfig` over
`N` declared well-formed servers — of which `K` fail to connect (their
`Initialize` or tool discovery errs) — attempts every server, registers
exactly `N − K` sessions, and returns without error, provided the
servers' *effective* identities (after the empty-identity fallback to
the URL/command in `ConnectSSE`/`ConnectStdio`) are pairwise distinct;
an empty declared identity may alias another declared identity, in
which case the later connect replaces the earlier session and fewer
sessions remain. -/
theorem initialize_registers_all_successes
    (servers : List (String × MCPServerConfig))
    (behav : String → SessionBehavior)
    (hwf : ∀ sv ∈ servers, serverWellFormed sv.2)
    (hnd : (servers.map effectiveID).Nodup) :
    (initializeFromConfig emptyClients true false servers behav).2 = true ∧
    (initializeFromConfig emptyClients true false servers behav).1.sessions.length =
      servers.length -
        (servers.filter
          (fun sv => connectFails (behav (effectiveID sv)))).length := by
  refine ⟨rfl, ?_⟩
  have heq : (initializeFromConfig emptyClients true false servers behav).1 =
      servers.foldl (initStep behav) emptyClients := rfl
  have h := initFold_sessions_length behav servers emptyClients hwf hnd
    (fun sv _ => rfl)
  have hsum := length_filter_bool_split
    (fun sv => connectFails (behav (effectiveID sv))) servers
  rw [heq, h]
  simp only [emptyClients, List.length_nil, Nat.zero_add]
  omega

/-- Witness for C7: two servers, `"s1"` (SSE, connects) and `"s2"`
(stdio, fails to initialize); exactly one session gets registered. -/
theorem initialize_registers_all_successes_witness :
    (∀ sv ∈ [("s1", { type := "sse", url := "http://x", command := "" }),
             ("s2", { type := "stdio", url := "", command := "cmd" })],
      serverWellFormed (Prod.snd sv)) ∧
    (([("s1", ({ type := "sse", url := "http://x", command := "" } : MCPServerConfig)),
       ("s2", { type := "stdio", url := "", command := "cmd" })].map effectiveID).Nodup) ∧
    ((initializeFromConfig emptyClients true false
        [("s1", { type := "sse", url := "http://x", command := "" }),
         ("s2", { type := "stdio", url := "", command := "cmd" })]
        (fun id => if id = "s1"
          then { initOk := true, listTools := some [] }
          else { initOk := false, listTools := none })).2 = true ∧
     (initializeFromConfig emptyClients true false
        [("s1", { type := "sse", url := "http://x", command := "" }),
         ("s2", { type := "stdio", url := "", command := "cmd" })]
        (fun id => if id = "s1"
          then { initOk := true, listTools := some [] }
          else { initOk := false, listTools := none })).1.sessions.length =
       [("s1", ({ type := "sse", url := "http://x", command := "" } : MCPServerConfig)),
        ("s2", { type := "stdio", url := "", command := "cmd" })].length -
         ([("s1", ({ type := "sse", url := "http://x", command := "" } : MCPServerConfig)),
           ("s2", { type := "stdio", url := "", command := "cmd" })].filter
           (fun sv => connectFails
             ((fun id => if id = "s1"
                then ({ initOk := true, listTools := some [] } : SessionBehavior)
                else { initOk := false, listTools := none })
              (effectiveID sv)))).length) :=
  ⟨by intro sv h; fin_cases h
      · exact Or.inl ⟨rfl, by decide⟩
      · exact Or.inr ⟨rfl, by decide⟩,
   by decide,
   initialize_registers_all_successes _ _
     (by intro sv h; fin_cases h
         · exact Or.inl ⟨rfl, by decide⟩
         · exact Or.inr ⟨rfl, by decide⟩)
     (by decide)⟩

theorem manusLoop_budget (oracle : Nat → Option AgentMsg)
    (hres : ∀ n, oracle n ≠ none)
    (hterm : ∀ n r, oracle n = some r → isTaskCompleteManus r = false) :
    ∀ (fuel step : Nat),
      manusLoop false oracle step fuel = (step + fuel, .budget) := by
  intro fuel
  induction fuel with
  | zero =>
    intro step
    rfl
  | succ f ih =>
    intro step
    rw [manusLoop]
    simp only [Bool.false_eq_true, if_false]
    cases ho : oracle (step + 1) with
    | none => exact absurd ho (hres _)
    | some r =>
      simp only [hterm _ _ ho, Bool.false_eq_true, if_false, ih (step + 1)]
      have harith : step + 1 + f = step + (f + 1) := by omega
      rw [harith]

/-- C5.  A run with `maxSteps = 3`, a successful initialization, an
uncancelled context, and model replies that never trigger the
termination check executes exactly 3 steps, returns without error, and
logs the budget-exhausted warning. -/
theorem run_exhausts_budget_at_three (oracle : Nat → Option AgentMsg)
    (hres : ∀ n, oracle n ≠ none)
    (hterm : ∀ n r, oracle n = some r → isTaskCompleteManus r = false) :
    manusRun false false oracle 3 =
      { finalStep := 3, err := false, budgetWarned := true } := by
  rw [manusRun, if_neg (by simp)]
  rw [manusLoop_budget oracle hres hterm 3 0]
  rfl

/-- Witness for C5: the model always replies with empty content and no
tool calls. -/
theorem run_exhausts_budget_at_three_witness :
    manusRun false false (fun _ => some { content := none, toolCallNames := [] }) 3 =
      { finalStep := 3, err := false, budgetWarned := true } :=
  run_exhausts_budget_at_three _
    (fun _ h => by cases h)
    (fun _ r h => by
      rw [← Option.some.inj h]
      rfl)

/-- C6, counterexample.  A run whose model repeats the reply `"A"` with
`duplicateThreshold = 2 < maxSteps = 5` does stop early at step 2 via the
duplicate guard — but `Run` returns `nil`, exactly as a normal completion
does (shown alongside for a task-completing run): no `StuckLoopError`
value exists anywhere; the guard only logs a warning and breaks. -/
theorem stuck_loop_returns_nil_counterexample :
    (agentRun false (fun _ => some (some "A")) "S" "P" 5 2).exit =
      .duplicate ∧
    (agentRun false (fun _ => some (some "A")) "S" "P" 5 2).finalStep = 2 ∧
    (agentRun false (fun _ => some (some "A")) "S" "P" 5 2).finalStep < 5 ∧
    (agentRun false (fun _ => some (some "A")) "S" "P" 5 2).err = false ∧
    (agentRun false (fun _ => some (some "task completed")) "S" "P" 5 2).exit =
      .taskComplete ∧
    (agentRun false (fun _ => some (some "task completed")) "S" "P" 5 2).err =
      false := by
  refine ⟨rfl, rfl, by decide, rfl, rfl, rfl⟩

theorem agentLoop_until_duplicate
    (oracle : Nat → Option (Option String)) (dupThreshold : Int)
    (mem0 : Memory (Option String)) (s : Nat)
    (hok : ∀ k, 1 ≤ k → k ≤ s → oracle k ≠ none)
    (hnc : ∀ k c, 1 ≤ k → k ≤ s → oracle k = some c →
      isTaskCompleteAgent c = false)
    (hnd : ∀ k c, 1 ≤ k → k < s → oracle k = some c →
      isDuplicateResponse (agentMemAt oracle mem0 k) c dupThreshold = false)
    (hd : ∀ c, oracle s = some c →
      isDuplicateResponse (agentMemAt oracle mem0 s) c dupThreshold = true) :
    ∀ fuel k : Nat, s ≤ k + fuel → k < s →
      agentLoop false oracle dupThreshold (agentMemAt oracle mem0 k) k fuel =
        (agentMemAt oracle mem0 s, s, .duplicate) := by
  intro fuel
  induction fuel with
  | zero =>
    intro k hks hk
    omega
  | succ f ih =>
    intro k hks hk
    rw [agentLoop]
    simp only [Bool.false_eq_true, if_false]
    have h1k : 1 ≤ k + 1 := by omega
    have hk1s : k + 1 ≤ s := by omega
    cases ho : oracle (k + 1) with
    | none => exact absurd ho (hok (k + 1) h1k hk1s)
    | some c =>
      have hmem : (agentMemAt oracle mem0 k).addMessage c =
          agentMemAt oracle mem0 (k + 1) := by
        rw [agentMemAt, ho]
      simp only [hnc (k + 1) c h1k hk1s ho, Bool.false_eq_true, if_false, hmem]
      by_cases hlast : k + 1 = s
      · rw [hlast, hd c (hlast ▸ ho), if_pos rfl]
      · have hk1 : k + 1 < s := by omega
        rw [hnd (k + 1) c h1k hk1 ho]
        simp only [Bool.false_eq_true, if_false]
        exact ih (k + 1) (by omega) hk1

/-- C6, amended.  For every run with an uncancelled context: if at some
step `s ≤ maxSteps` the just-appended assistant reply exactly matches at
least `duplicateThreshold` of the last 5 memory entries (the guard's
window, which includes the reply itself), no earlier step having
completed, errored or tripped the guard, then the run stops at step `s`
— executing no further steps, hence before exhausting `maxSteps`
whenever `s < maxSteps` — but it reports no error: the guard only logs a
warning and breaks, and `Run` returns `nil`, indistinguishable in its
return value from normal completion (no `StuckLoopError` exists in the
code). -/
theorem stuck_loop_stops_early_without_error
    (oracle : Nat → Option (Option String))
    (systemPrompt prompt : String) (maxSteps : Nat) (dupThreshold : Int)
    (s : Nat) (hs1 : 1 ≤ s) (hsmax : s ≤ maxSteps)
    (hok : ∀ k, 1 ≤ k → k ≤ s → oracle k ≠ none)
    (hnc : ∀ k c, 1 ≤ k → k ≤ s → oracle k = some c →
      isTaskCompleteAgent c = false)
    (hnd : ∀ k c, 1 ≤ k → k < s → oracle k = some c →
      isDuplicateResponse
        (agentMemAt oracle (agentInitMemory systemPrompt prompt) k) c
        dupThreshold = false)
    (hd : ∀ c, oracle s = some c →
      isDuplicateResponse
        (agentMemAt oracle (agentInitMemory systemPrompt prompt) s) c
        dupThreshold = true) :
    (agentRun false oracle systemPrompt prompt maxSteps dupThreshold).exit =
      .duplicate ∧
    (agentRun false oracle systemPrompt prompt maxSteps dupThreshold).finalStep
      = s ∧
    (s < maxSteps →
      (agentRun false oracle systemPrompt prompt maxSteps
        dupThreshold).finalStep < maxSteps) ∧
    (agentRun false oracle systemPrompt prompt maxSteps dupThreshold).err =
      false := by
  have key : agentLoop false oracle dupThreshold
      (agentInitMemory systemPrompt prompt) 0 maxSteps =
      (agentMemAt oracle (agentInitMemory systemPrompt prompt) s, s,
        .duplicate) :=
    agentLoop_until_duplicate oracle dupThreshold
      (agentInitMemory systemPrompt prompt) s hok hnc hnd hd maxSteps 0
      (by omega) (by omega)
  have hrun : agentRun false oracle systemPrompt prompt maxSteps dupThreshold =
      { finalStep := s, exit := .duplicate, err := false,
        memory := agentMemAt oracle (agentInitMemory systemPrompt prompt) s } := by
    simp only [agentRun, key]
  rw [hrun]
  exact ⟨rfl, rfl, fun h => h, rfl⟩

/-- Witness for the amended C6: the model repeats `"A"` forever with
threshold 2; the guard fires at step `s = 2 < maxSteps = 5`. -/
theorem stuck_loop_stops_early_without_error_witness :
    (1 ≤ 2 ∧ 2 ≤ 5) ∧
    ((agentRun false (fun _ => some (some "A")) "S" "P" 5 2).exit =
       .duplicate ∧
     (agentRun false (fun _ => some (some "A")) "S" "P" 5 2).finalStep = 2 ∧
     (2 < 5 →
       (agentRun false (fun _ => some (some "A")) "S" "P" 5 2).finalStep < 5) ∧
     (agentRun false (fun _ => some (some "A")) "S" "P" 5 2).err = false) :=
  ⟨⟨by decide, by decide⟩,
   stuck_loop_stops_early_without_error (fun _ => some (some "A")) "S" "P" 5 2
     2 (by decide) (by decide)
     (fun _ _ _ h => Option.noConfusion h)
     (fun k c _ _ h => by
       rw [← Option.some.inj h]
       rfl)
     (fun k c _ hk h => by
       have hk1 : k = 1 := by omega
       subst hk1
       rw [← Option.some.inj h]
       decide)
     (fun c h => by
       rw [← Option.some.inj h]
       decide)⟩

end GoManus
